import Mathlib

/- Verification of the temporary-mailbox lifecycle engine of the TG bot
   (src/database/mongo_client.py, src/email_services/email_generator.py,
   src/email_services/email_parser.py, src/email/imap_client.py).
   Timestamps are modelled as natural numbers counting seconds; MongoDB
   documents are Lean structures and a collection is a list of documents.
   Python strings are modelled as Lean strings / lists of characters; the
   Unicode-dependent behaviour of str.lower and str.isalnum is modelled
   on the Basic Latin and Latin-1 Supplement blocks (all characters used
   in this development stay inside those blocks). -/

namespace TG

/-! Python character and string semantics helpers -/

/-- Python str.lower, modelled character-wise on the Basic Latin and Latin-1
Supplement blocks: ASCII A-Z and the Latin-1 uppercase letters U+00C0..U+00DE
(except the multiplication sign U+00D7) map to their lowercase forms 32 code
points higher; every other character in those blocks is unchanged. -/
def pyLower (c : Char) : Char :=
  if 65 ≤ c.toNat && c.toNat ≤ 90 then Char.ofNat (c.toNat + 32)
  else if (192 ≤ c.toNat && c.toNat ≤ 222) && c.toNat != 215 then Char.ofNat (c.toNat + 32)
  else c

/-- Python str.isalnum (Unicode categories Nd, No, Lu, Ll, Lo), modelled on the
Basic Latin and Latin-1 Supplement blocks: ASCII digits and letters, the
ordinal indicators U+00AA and U+00BA, micro sign U+00B5, superscripts
U+00B2 U+00B3 U+00B9, vulgar fractions U+00BC..U+00BE, and the Latin-1
letters U+00C0..U+00D6, U+00D8..U+00F6, U+00F8..U+00FF. Code points above
U+00FF are outside the model's domain. -/
def pyIsAlnum (c : Char) : Bool :=
  let n := c.toNat
  (48 ≤ n && n ≤ 57) || (65 ≤ n && n ≤ 90) || (97 ≤ n && n ≤ 122) ||
  n == 170 || n == 178 || n == 179 || n == 181 || n == 185 || n == 186 ||
  (188 ≤ n && n ≤ 190) || (192 ≤ n && n ≤ 214) || (216 ≤ n && n ≤ 246) ||
  (248 ≤ n && n ≤ 255)

/-- Python regex class \s (ASCII part: space, tab, newline, carriage return,
vertical tab, form feed). -/
def isPySpace (c : Char) : Bool :=
  c == ' ' || c == '\t' || c == '\n' || c == '\r' || c.toNat == 11 || c.toNat == 12

/-- Python regex class \w (ASCII part). -/
def isWordChar (c : Char) : Bool :=
  (48 ≤ c.toNat && c.toNat ≤ 57) || (65 ≤ c.toNat && c.toNat ≤ 90) ||
  (97 ≤ c.toNat && c.toNat ≤ 122) || c == '_'

/-- Python str.strip(): drop whitespace from both ends. -/
def pyStrip (cs : List Char) : List Char :=
  ((cs.dropWhile isPySpace).reverse.dropWhile isPySpace).reverse

/-- Python str.strip(chars): drop any of the given characters from both ends. -/
def pyStripChars (sel : List Char) (cs : List Char) : List Char :=
  ((cs.dropWhile (fun c => sel.contains c)).reverse.dropWhile
    (fun c => sel.contains c)).reverse

/-- Python slice s[:i] (a negative bound counts from the end, clamped at 0). -/
def pySliceTo (cs : List Char) (i : Int) : List Char :=
  if i < 0 then cs.take ((cs.length + i).toNat) else cs.take i.toNat

/-- Python slice s[i:] (a negative bound counts from the end, clamped at 0). -/
def pySliceFrom {α : Type} (xs : List α) (i : Int) : List α :=
  if i < 0 then xs.drop ((xs.length + i).toNat) else xs.drop i.toNat

/-- Case-insensitive comparison of two characters (ASCII letters). -/
def charCI (a b : Char) : Bool :=
  a == b ||
  (65 ≤ a.toNat && a.toNat ≤ 90 && b.toNat == a.toNat + 32) ||
  (65 ≤ b.toNat && b.toNat ≤ 90 && a.toNat == b.toNat + 32)

/-- Does the needle start the haystack, comparing case-insensitively? -/
def startsWithCI : List Char → List Char → Bool
  | [], _ => true
  | _ :: _, [] => false
  | a :: as, b :: bs => charCI a b && startsWithCI as bs

/-- Exact (case-sensitive) list-of-characters prefix test. -/
def startsWithCS : List Char → List Char → Bool
  | [], _ => true
  | _ :: _, [] => false
  | a :: as, b :: bs => a == b && startsWithCS as bs

/-- Python substring containment (the `in` operator on str). -/
def containsSub (needle : List Char) : List Char → Bool
  | [] => startsWithCS needle []
  | c :: t => startsWithCS needle (c :: t) || containsSub needle t

/-! Configuration constants from src/config.py -/

def EMAIL_DOMAIN : String := "seveton.site"

/-- EMAIL_EXPIRY_TIME = timedelta(hours=1), in seconds. -/
def EMAIL_EXPIRY_TIME : Nat := 3600

def EMAIL_PREFIX_LENGTH : Nat := 6

def EMAIL_RANDOM_LENGTH : Nat := 8

def EMAIL_ALLOWED_CHARS : List Char := "abcdefghijklmnopqrstuvwxyz0123456789".toList

def EMAIL_MAX_GENERATION_ATTEMPTS : Nat := 10

def MAX_INBOX_MESSAGES : Nat := 5

/-! Registry data model: src/database/mongo_client.py.  A user document as
created by MongoDBClient.create_user; the MongoDB collection is a list of
documents.  The source field `prefix` is called `pfx` here. -/

structure UserDoc where
  telegram_id : Nat
  email : String
  pfx : String
  created_at : Nat
  expires_at : Nat
  is_active : Bool
  last_checked : Nat
  message_count : Nat
  total_messages_received : Nat
  last_message_date : Option Nat
  deactivated_at : Option Nat
  deactivation_reason : Option String
deriving Repr, DecidableEq

abbrev Store := List UserDoc

/-- The query `telegram_id = tid, is_active = true` shared by get_user,
update_last_checked, increment_message_count and deactivate_user: the
document is a stored active entry for the identity. -/
def activeFor (tid : Nat) (d : UserDoc) : Bool :=
  d.telegram_id == tid && d.is_active

/-- MongoDB collection.update_one: update the first document matching the
query; the Bool is `modified_count > 0` (every update below changes the
matched document, so modified equals matched). -/
def updateOne (q : UserDoc → Bool) (u : UserDoc → UserDoc) : Store → Store × Bool
  | [] => ([], false)
  | d :: ds =>
    if q d then (u d :: ds, true)
    else
      let r := updateOne q u ds
      (d :: r.1, r.2)

/-- MongoDB collection.update_many: update every matching document and
return the modified count. -/
def updateMany (q : UserDoc → Bool) (u : UserDoc → UserDoc) : Store → Store × Nat
  | [] => ([], 0)
  | d :: ds =>
    let r := updateMany q u ds
    if q d then (u d :: r.1, r.2 + 1) else (d :: r.1, r.2)

/-- MongoDBClient.deactivate_user: update_one on the active document of the
identity, setting is_active false and stamping deactivated_at. -/
def deactivate_user (tid now : Nat) (db : Store) : Store × Bool :=
  updateOne (activeFor tid)
    (fun d => { d with is_active := false, deactivated_at := some now }) db

/-- Python `email.split('@')[0].split('_')[0]`, the fallback used by
create_user when no prefix argument is given. -/
def derivedPfxOf (email : String) : String :=
  String.mk ((email.toList.takeWhile (fun c => c != '@')).takeWhile (fun c => c != '_'))

inductive CreateError where
  | duplicateKey
deriving Repr, DecidableEq

/-- MongoDBClient.create_user: first deactivate the existing active entry,
then insert a fresh active document.  _create_indexes installs a unique
(non-partial) index on telegram_id, so insert_one raises DuplicateKeyError
whenever any document with the same telegram_id is still stored, active or
not; the store component of the result reflects the writes performed before
the failure (the deactivation is a separate, already-committed update). -/
def create_user (tid : Nat) (email : String) (pfx : Option String) (now : Nat)
    (db : Store) : Except CreateError UserDoc × Store :=
  let db1 := (deactivate_user tid now db).1
  if db1.any (fun d => d.telegram_id == tid) then (.error .duplicateKey, db1)
  else
    let p :=
      match pfx with
      | some s => if s = "" then derivedPfxOf email else s
      | none => derivedPfxOf email
    let doc : UserDoc :=
      { telegram_id := tid, email := email, pfx := p, created_at := now,
        expires_at := now + EMAIL_EXPIRY_TIME, is_active := true,
        last_checked := now, message_count := 0, total_messages_received := 0,
        last_message_date := none, deactivated_at := none,
        deactivation_reason := none }
    (.ok doc, db1 ++ [doc])

/-- The per-document increment performed by increment_message_count. -/
def bumpDoc (now : Nat) (d : UserDoc) : UserDoc :=
  { d with message_count := d.message_count + 1,
           total_messages_received := d.total_messages_received + 1,
           last_message_date := some now }

/-- MongoDBClient.increment_message_count: update_one on the active document
of the identity, incrementing both counters and stamping last_message_date;
returns whether a document was modified. -/
def increment_message_count (tid now : Nat) (db : Store) : Store × Bool :=
  updateOne (activeFor tid) (bumpDoc now) db

/-- Calling increment_message_count k times in a row for the same identity
(each poll cycle that finds new mail performs one such call). -/
def iterateIncrement (tid now : Nat) : Nat → Store → Store
  | 0, db => db
  | k + 1, db => iterateIncrement tid now k (increment_message_count tid now db).1

/-- Query used by delete_expired_users: active and past expiry (strict). -/
def isExpiredActive (now : Nat) (d : UserDoc) : Bool :=
  d.is_active && decide (d.expires_at < now)

/-- Update applied by delete_expired_users to every expired active document. -/
def expireDoc (now : Nat) (d : UserDoc) : UserDoc :=
  { d with is_active := false, deactivated_at := some now,
           deactivation_reason := some "expired" }

/-- MongoDBClient.delete_expired_users: update_many deactivating every active
document whose expires_at is strictly in the past, stamping
deactivation_reason = "expired"; returns the modified count. -/
def delete_expired_users (now : Nat) (db : Store) : Store × Nat :=
  updateMany (isExpiredActive now) (expireDoc now) db

/-! Registry operation sequences, for the at-most-one-active invariant. -/

inductive RegOp where
  | create (now tid : Nat) (email : String) (pfx : Option String)
  | deactivate (now tid : Nat)
  | sweep (now : Nat)
deriving Repr

def applyOp (db : Store) : RegOp → Store
  | .create now tid email pfx => (create_user tid email pfx now db).2
  | .deactivate now tid => (deactivate_user tid now db).1
  | .sweep now => (delete_expired_users now db).1

def applyOps (ops : List RegOp) (db : Store) : Store :=
  ops.foldl applyOp db

/-! Address generator: src/email_services/email_generator.py.  The calls to
random.choices / random.choice are modelled by a tape of natural numbers
consumed left to right: drawing from an alphabet picks the character indexed
by the next tape value modulo the alphabet size. -/

/-- One draw of random.choice(chars). -/
def pick (chars : List Char) (r : Nat) : Char :=
  chars.getD (r % chars.length) 'a'

/-- EmailGenerator.generate_random_string with use_lowercase_only=True:
`length` draws from the alphabet, consuming tape positions pos, pos+1, .... -/
def drawString (tape : Nat → Nat) (pos len : Nat) (chars : List Char) : List Char :=
  (List.range len).map (fun i => pick chars (tape (pos + i)))

/-- EmailGenerator.generate_user_prefix: clean a custom prefix (lowercase,
keep alphanumerics), truncate to EMAIL_PREFIX_LENGTH, fall back to a random
prefix when empty, pad with random allowed characters when short; without a
custom prefix generate a fully random one.  Returns the prefix together with
the next unused tape position. -/
def userPrefixGen (tape : Nat → Nat) (pos : Nat) (customPfx : Option String) :
    List Char × Nat :=
  match customPfx with
  | some cp =>
    if cp = "" then
      (drawString tape pos EMAIL_PREFIX_LENGTH EMAIL_ALLOWED_CHARS,
       pos + EMAIL_PREFIX_LENGTH)
    else
      let clean := (cp.toList.map pyLower).filter pyIsAlnum
      if EMAIL_PREFIX_LENGTH < clean.length then (clean.take EMAIL_PREFIX_LENGTH, pos)
      else if clean.length = 0 then
        (drawString tape pos EMAIL_PREFIX_LENGTH EMAIL_ALLOWED_CHARS,
         pos + EMAIL_PREFIX_LENGTH)
      else
        (clean ++ drawString tape pos (EMAIL_PREFIX_LENGTH - clean.length)
          EMAIL_ALLOWED_CHARS,
         pos + (EMAIL_PREFIX_LENGTH - clean.length))
  | none =>
    (drawString tape pos EMAIL_PREFIX_LENGTH EMAIL_ALLOWED_CHARS,
     pos + EMAIL_PREFIX_LENGTH)

/-- The address format produced by generate_unique_email. -/
def mkEmail (p suffix : List Char) : String :=
  String.mk (p ++ '_' :: suffix ++ '@' :: EMAIL_DOMAIN.toList)

/-- The bounded retry loop of generate_unique_email: draw a random suffix,
form the address, accept it when no stored document (active or not) carries
it, otherwise retry; gives up after the attempt budget. -/
def genAttempts (tape : Nat → Nat) (p : List Char) (db : Store) :
    Nat → Nat → Option String × Nat
  | pos, 0 => (none, pos)
  | pos, n + 1 =>
    let suffix := drawString tape pos EMAIL_RANDOM_LENGTH EMAIL_ALLOWED_CHARS
    let email := mkEmail p suffix
    let pos' := pos + EMAIL_RANDOM_LENGTH
    if db.any (fun d => d.email == email) then genAttempts tape p db pos' n
    else (some email, pos')

/-- EmailGenerator.generate_unique_email (the ValueError after exhausting the
attempt budget is the `none` outcome). -/
def generate_unique_email (tape : Nat → Nat) (pos : Nat) (customPfx : Option String)
    (db : Store) : Option String × Nat :=
  let r := userPrefixGen tape pos customPfx
  genAttempts tape r.1 db r.2 EMAIL_MAX_GENERATION_ATTEMPTS

/-- One provisioning request: identity, optional custom prefix, current time. -/
structure ProvisionStep where
  tid : Nat
  customPfx : Option String
  now : Nat
deriving Repr

/-- The insertion half of a provision call: create_user with the prefix
extracted from the generated address; a DuplicateKeyError surfaces as an
unsuccessful call, with the store as create_user left it. -/
def provisionInsert (st : ProvisionStep) (db : Store) (email : String)
    (posAfter : Nat) : Option String × Nat × Store :=
  let c := create_user st.tid email (some (derivedPfxOf email)) st.now db
  match c.1 with
  | .ok _ => (some email, posAfter, c.2)
  | .error _ => (none, posAfter, c.2)

/-- One provision call as the bot performs it: the Generator's pre-check for
an already-active entry (generate_email_with_validation), then
generate_unique_email, then MongoDBClient.create_user with the prefix
extracted from the address.  The store is returned on every path so a
sequence of calls can be threaded. -/
def provision (tape : Nat → Nat) (pos : Nat) (st : ProvisionStep) (db : Store) :
    Option String × Nat × Store :=
  if db.any (fun d => activeFor st.tid d) then (none, pos, db)
  else
    let g := generate_unique_email tape pos st.customPfx db
    match g.1 with
    | none => (none, g.2, db)
    | some email => provisionInsert st db email g.2

/-- Run a sequence of provision calls, collecting the successfully returned
addresses in order. -/
def runProvisions (tape : Nat → Nat) : List ProvisionStep → Nat → Store →
    List String × Store
  | [], _, db => ([], db)
  | s :: ss, pos, db =>
    let r := provision tape pos s db
    let rest := runProvisions tape ss r.2.1 r.2.2
    (match r.1 with | some e => e :: rest.1 | none => rest.1, rest.2)

/-- The character class [a-z0-9]. -/
def isLowerAlnum (c : Char) : Bool :=
  (97 ≤ c.toNat && c.toNat ≤ 122) || (48 ≤ c.toNat && c.toNat ≤ 57)

/-- The address shape of section 8 of the spec:
`^[a-z0-9]+_[a-z0-9]{8}@seveton.site$` (EMAIL_RANDOM_LENGTH = 8). -/
def emailMatchesPattern (e : String) : Bool :=
  let cs := e.toList
  let p := cs.takeWhile (fun c => c != '_')
  let rest := cs.drop p.length
  decide (p ≠ []) && p.all isLowerAlnum &&
  (rest.take 1 == ['_']) &&
  ((rest.drop 1).take EMAIL_RANDOM_LENGTH).length == EMAIL_RANDOM_LENGTH &&
  ((rest.drop 1).take EMAIL_RANDOM_LENGTH).all isLowerAlnum &&
  (rest.drop 1).drop EMAIL_RANDOM_LENGTH == '@' :: EMAIL_DOMAIN.toList

/-- Side condition on a custom prefix: it stays inside the modelled Latin-1
domain and its cleaned form (lowercased, non-alphanumerics removed) consists
of [a-z0-9] characters only — which is the case for every ASCII custom
prefix. -/
def pfxOk (customPfx : Option String) : Bool :=
  match customPfx with
  | none => true
  | some cp =>
    cp.toList.all (fun c => c.toNat ≤ 255) &&
    ((cp.toList.map pyLower).filter pyIsAlnum).all isLowerAlnum

/-- Side condition on one provision request: its custom prefix is absent or
well-behaved in the sense of pfxOk. -/
def stepOk (s : ProvisionStep) : Bool :=
  pfxOk s.customPfx

/-- The uniqueness query of generate_unique_email: some stored document
(active or not) carries the address. -/
def hasEmail (e : String) (db : Store) : Bool :=
  db.any (fun d => d.email == e)

/-! Mailbox client and message parsing: src/email/imap_client.py.  A MIME
part carries its content type, Content-Disposition header (absence modelled
by the empty string, matching str(part.get('Content-Disposition', ''))), an
optional declared filename, and its decoded payload; decoded byte payloads
are modelled as strings, the empty string standing for both an empty and an
absent (None) payload, which the source treats identically (`if not
payload`). -/

structure PartData where
  content_type : String
  content_disposition : String
  filename : Option String
  payload : String
deriving Repr, DecidableEq

/-- A well-formed mail object: headers, the multipart flag, the container's
own part view (what email.message.Message.walk yields first) and the child
parts in walk order. -/
structure EmailMsg where
  subject : String
  sender : String
  to_header : String
  date_str : String
  message_id : String
  multipart : Bool
  selfPart : PartData
  parts : List PartData
deriving Repr, DecidableEq

/-- email.message.Message.walk on a (one-level) multipart message: the
container itself, then each child part. -/
def walkParts (m : EmailMsg) : List PartData :=
  m.selfPart :: m.parts

/-- An attachment record as built by IMAPClient._extract_attachment. -/
structure Attachment where
  filename : String
  content_type : String
  size : Nat
  data : String
  is_image : Bool
  is_pdf : Bool
  is_document : Bool
deriving Repr, DecidableEq

/-- IMAPClient._extract_attachment: a part yields an attachment only when it
declares a non-empty filename and its decoded payload is non-empty; the
classification flags derive from the content type. -/
def extract_attachment (p : PartData) : Option Attachment :=
  match p.filename with
  | none => none
  | some fn =>
    if fn = "" then none
    else if p.payload = "" then none
    else
      some { filename := fn, content_type := p.content_type,
             size := p.payload.length, data := p.payload,
             is_image := "image/".isPrefixOf p.content_type,
             is_pdf := p.content_type == "application/pdf",
             is_document :=
               ("application/".isPrefixOf p.content_type ||
                "text/".isPrefixOf p.content_type) &&
               !("image/".isPrefixOf p.content_type) }

/-- One step of the part walk inside _extract_body_and_attachments: a part
whose Content-Disposition contains the token "attachment" goes through
attachment extraction; otherwise the first text/plain part fills body_text
and the first text/html part fills body_html. -/
def bodyStep (acc : String × String × List Attachment) (p : PartData) :
    String × String × List Attachment :=
  if containsSub "attachment".toList p.content_disposition.toList then
    match extract_attachment p with
    | some a => (acc.1, acc.2.1, acc.2.2 ++ [a])
    | none => acc
  else if p.content_type == "text/plain" && acc.1 == "" then
    (if p.payload == "" then acc.1 else p.payload, acc.2.1, acc.2.2)
  else if p.content_type == "text/html" && acc.2.1 == "" then
    (acc.1, if p.payload == "" then acc.2.1 else p.payload, acc.2.2)
  else acc

/-- IMAPClient._extract_body_and_attachments: a multipart message is walked
part by part; a single-part message only ever contributes its own payload as
body text or body html — it is never scanned for attachments. -/
def extract_body_and_attachments (m : EmailMsg) :
    String × String × List Attachment :=
  if m.multipart then (walkParts m).foldl bodyStep ("", "", [])
  else
    if m.selfPart.content_type == "text/plain" then
      (if m.selfPart.payload == "" then "" else m.selfPart.payload, "", [])
    else if m.selfPart.content_type == "text/html" then
      ("", if m.selfPart.payload == "" then "" else m.selfPart.payload, [])
    else ("", "", [])

/-- IMAPClient._decode_header on headers without encoded words: the decoded
parts are the raw text, and the result is stripped of surrounding
whitespace (the function's own try/except returns its input on failure, so
it never raises). -/
def decode_header (h : String) : String :=
  if h = "" then "" else String.mk (pyStrip h.toList)

/-- A raw message handed to the parser.  `wellFormed` is a message whose
field accesses succeed; `malformed` stands for an input on which the
extraction code inside the try block of _parse_email_message raises (the
string is the exception text), which the shallow embedding surfaces as an
explicit error case instead of a Python exception. -/
inductive RawMessage where
  | wellFormed (m : EmailMsg)
  | malformed (err : String)
deriving Repr, DecidableEq

/-- The record built by IMAPClient._parse_email_message.  The date field
(parsed via email.utils.parsedate_tz), the regex-extracted sender_email and
the size field are not modelled: no verified claim concerns them.  A missing
parse_error key in the source dictionary is the value `false` here (readers
use .get('parse_error', False) semantics). -/
structure FetchedMessage where
  uid : String
  subject : String
  sender : String
  toHdr : String
  date_str : String
  message_id : String
  body_text : String
  body_html : String
  attachments : List Attachment
  has_attachments : Bool
  attachment_count : Nat
  parse_error : Bool
deriving Repr, DecidableEq

/-- IMAPClient._parse_email_message: extract headers, body and attachments
from the message; any exception inside the try block is caught and turned
into a degraded record flagged parse_error=true.  The function is total —
it returns a record on every input. -/
def parse_email_message (raw : RawMessage) (uid : String) : FetchedMessage :=
  match raw with
  | .malformed e =>
    { uid := uid, subject := "Parse Error", sender := "Unknown", toHdr := "",
      date_str := "", message_id := "",
      body_text := "Error parsing email: " ++ e, body_html := "",
      attachments := [], has_attachments := false, attachment_count := 0,
      parse_error := true }
  | .wellFormed m =>
    let r := extract_body_and_attachments m
    { uid := uid, subject := decode_header m.subject,
      sender := decode_header m.sender, toHdr := decode_header m.to_header,
      date_str := m.date_str, message_id := m.message_id,
      body_text := r.1, body_html := r.2.1, attachments := r.2.2,
      has_attachments := !r.2.2.isEmpty, attachment_count := r.2.2.length,
      parse_error := false }

/-- IMAPClient.fetch_message_list, with the search result (the ordered UID
sequence) and the per-UID fetch outcome (None for a failed or skipped
fetch — per-message failures are caught and skipped) supplied as inputs:
keep `uids[-limit:]` when more than `limit` UIDs were found, fetch them in
reversed order (newest first), and drop the failures. -/
def fetch_message_list (fetch : String → Option FetchedMessage)
    (uids : List String) (limit : Int) : List FetchedMessage :=
  if uids = [] then []
  else
    let sel := if (uids.length : Int) > limit then pySliceFrom uids (-limit) else uids
    sel.reverse.filterMap fetch

/-! Rendering: src/email_services/email_parser.py. -/

/-- html.escape on one character (quote=True default: ampersand, angle
brackets and both quote characters). -/
def htmlEscapeChar (c : Char) : List Char :=
  if c = '&' then "&amp;".toList
  else if c = '<' then "&lt;".toList
  else if c = '>' then "&gt;".toList
  else if c = '"' then "&quot;".toList
  else if c = '\'' then "&#x27;".toList
  else [c]

/-- Python html.escape. -/
def htmlEscape (s : String) : String :=
  String.mk (s.toList.map htmlEscapeChar).flatten

/-- Collapse every whitespace run into one space: re.sub of one or more
whitespace characters with a single space.  Fuel-driven scan (the fuel is
the input length, and every step consumes at least one character). -/
def collapseWsL : Nat → List Char → List Char
  | 0, cs => cs
  | _ + 1, [] => []
  | fuel + 1, c :: cs =>
    if isPySpace c then ' ' :: collapseWsL fuel (cs.dropWhile isPySpace)
    else c :: collapseWsL fuel cs

/-- Python str.split on a newline character. -/
def splitNl : List Char → List (List Char)
  | [] => [[]]
  | c :: cs =>
    if c = '\n' then [] :: splitNl cs
    else
      match splitNl cs with
      | [] => [[c]]
      | l :: ls => (c :: l) :: ls

/-- Join lines with newline characters (Python '\n'.join). -/
def joinNl : List (List Char) → List Char
  | [] => []
  | [l] => l
  | l :: ls => l ++ '\n' :: joinNl ls

/-- The skip patterns of _create_text_preview, matched with re.match and
IGNORECASE: a signature separator line, a quoted line, a quoted-reply
introduction, a mobile signature. -/
def skipLine (l : List Char) : Bool :=
  (match l with
   | '-' :: '-' :: rest => rest.all isPySpace
   | _ => false) ||
  (match l with
   | '>' :: _ => true
   | _ => false) ||
  (startsWithCI "on ".toList l && containsSub "wrote:".toList (l.drop 3)) ||
  startsWithCI "sent from my".toList l

/-- The line-collection loop of _create_text_preview: strip each line, skip
blank and pattern-matching lines, stop once the joined result exceeds the
length budget. -/
def collectLines (maxLength : Int) (acc : List (List Char)) :
    List (List Char) → List (List Char)
  | [] => acc
  | l :: ls =>
    let l := pyStrip l
    if l = [] then collectLines maxLength acc ls
    else if skipLine l then collectLines maxLength acc ls
    else
      let acc' := acc ++ [l]
      if ((joinNl acc').length : Int) > maxLength then acc'
      else collectLines maxLength acc' ls

/-- EmailParser._create_text_preview: empty input yields "No content";
otherwise the text is stripped, whitespace-collapsed, filtered line by line
and finally hard-truncated to max_length-3 characters plus an ellipsis when
it exceeds max_length. -/
def createTextPreview (text : String) (maxLength : Int) : String :=
  if text = "" then "No content"
  else
    let t := collapseWsL (pyStrip text.toList).length (pyStrip text.toList)
    let clean := collectLines maxLength [] (splitNl t)
    let p := joinNl clean
    if (p.length : Int) > maxLength then
      String.mk (pySliceTo p (maxLength - 3) ++ "...".toList)
    else String.mk p

/-- EmailParser._extract_display_name: prefer the display-name portion before
an angle-bracketed address (stripped of whitespace and surrounding quotes),
fall back to the local part before an at sign, else the raw sender. -/
def extractDisplayName (sender : String) : String :=
  let cs := sender.toList
  if cs = [] then ""
  else
    let viaAngle : Option (List Char) :=
      if cs.contains '<' && cs.contains '>' then
        let np := pyStrip (cs.takeWhile (fun c => c != '<'))
        if np = [] then none else some (pyStripChars ['"', '\''] np)
      else none
    match viaAngle with
    | some n => String.mk n
    | none =>
      if cs.contains '@' then String.mk (cs.takeWhile (fun c => c != '@'))
      else sender

/-- EmailParser._format_relative_time, on timestamps in seconds. -/
def formatRelativeTime (received now : Int) : String :=
  let secs := now - received
  if secs < 60 then "just now"
  else if secs < 3600 then
    let m := (secs / 60).toNat
    toString m ++ " minute" ++ (if m != 1 then "s" else "") ++ " ago"
  else if secs < 86400 then
    let h := (secs / 3600).toNat
    toString h ++ " hour" ++ (if h != 1 then "s" else "") ++ " ago"
  else
    let d := (secs / 86400).toNat
    toString d ++ " day" ++ (if d != 1 then "s" else "") ++ " ago"

/-- The lines assembled by EmailParser.format_message_preview (the literal
prefixes reproduce the byte content of the source file): sender name,
truncated subject, relative time, a blank line, the text preview, and an
attachment count line when attachments are present. -/
def formatMessagePreviewLines (sender subject body_text : String)
    (has_attachments : Bool) (attachment_count : Nat) (received now : Int)
    (preview_length : Int) : List String :=
  let sn := extractDisplayName sender
  let senderName :=
    if sn = "" then
      if sender.toList.contains '@' then
        String.mk (sender.toList.takeWhile (fun c => c != '@'))
      else sender
    else sn
  let subj :=
    if (subject.length : Int) > 50 then
      String.mk (pySliceTo subject.toList 47) ++ "..."
    else subject
  let preview := createTextPreview body_text preview_length
  let base :=
    ["ðŸ“§ <b>" ++ htmlEscape senderName ++ "</b>",
     "ðŸ“‹ " ++ htmlEscape subj,
     "â° " ++ formatRelativeTime received now,
     "",
     "ðŸ“„ " ++ preview]
  if has_attachments then
    base ++ [if attachment_count == 1 then "ðŸ“Ž 1 attachment"
             else "ðŸ“Ž " ++ toString attachment_count ++ " attachments"]
  else base

/-- EmailParser.format_message_preview, joining the lines with newlines. -/
def format_message_preview (sender subject body_text : String)
    (has_attachments : Bool) (attachment_count : Nat) (received now : Int)
    (preview_length : Int) : String :=
  String.intercalate "\n"
    (formatMessagePreviewLines sender subject body_text has_attachments
      attachment_count received now preview_length)

/-! The HTML cleaner _clean_html_content: a pipeline of re.sub passes,
each modelled by a leftmost, non-overlapping scanner.  Each matcher takes
the text at the current scan position and returns the remainder after the
match when the pattern matches there. -/

/-- Generic re.sub with empty replacement: scan left to right, drop each
leftmost match and continue after it.  Fuel is the input length (every
successful match consumes at least one character, as all matchers below
do). -/
def scanRemove (m : List Char → Option (List Char)) : Nat → List Char → List Char
  | 0, cs => cs
  | _ + 1, [] => []
  | fuel + 1, c :: cs =>
    match m (c :: cs) with
    | some rest => scanRemove m fuel rest
    | none => c :: scanRemove m fuel cs

/-- Consume `[^>]*>`: drop everything up to and including the first '>'. -/
def dropThroughGt : List Char → Option (List Char)
  | [] => none
  | c :: cs => if c = '>' then some cs else dropThroughGt cs

/-- Find the literal close tag `</tag>` (case-insensitively) and return the
remainder after it — the non-greedy `.*?</tag>` of the block pattern. -/
def findCloseTag (tag : List Char) : List Char → Option (List Char)
  | [] => none
  | c :: cs =>
    if startsWithCI ('<' :: '/' :: (tag ++ ['>'])) (c :: cs) then
      some ((c :: cs).drop (tag.length + 3))
    else findCloseTag tag cs

/-- Matcher for `<tag[^>]*>.*?</tag>` (IGNORECASE, DOTALL) at the current
position. -/
def matchBlockAt (tag : List Char) (cs : List Char) : Option (List Char) :=
  match cs with
  | [] => none
  | c :: rest =>
    if c = '<' && startsWithCI tag rest then
      match dropThroughGt (rest.drop tag.length) with
      | some afterOpen => findCloseTag tag afterOpen
      | none => none
    else none

/-- Matcher for `<tag[^>]*/>` (IGNORECASE) at the current position: the
first '>' after the tag name must be directly preceded by '/'. -/
def matchSelfCloseAt (tag : List Char) (cs : List Char) : Option (List Char) :=
  match cs with
  | [] => none
  | c :: rest =>
    if c = '<' && startsWithCI tag rest then
      let afterTag := rest.drop tag.length
      let run := afterTag.takeWhile (fun x => x != '>')
      match afterTag.drop run.length with
      | '>' :: rest2 =>
        if run ≠ [] && run.getLast? == some '/' then some rest2 else none
      | _ => none
    else none

def dangerousTags : List (List Char) :=
  ["script".toList, "style".toList, "iframe".toList, "object".toList,
   "embed".toList, "form".toList, "input".toList]

/-- The first cleaning pass: for each dangerous tag, remove whole
`<tag...>...</tag>` blocks, then self-closing `<tag.../>` forms. -/
def stripDangerous (cs : List Char) : List Char :=
  dangerousTags.foldl
    (fun acc tag =>
      let a1 := scanRemove (matchBlockAt tag) acc.length acc
      scanRemove (matchSelfCloseAt tag) a1.length a1)
    cs

/-- Shared tail of the attribute patterns:
`\s*=\s*["'][^"']*["']` (the closing quote may differ from the opening
one, exactly as in the source pattern). -/
def matchEqQuoted (r : List Char) : Option (List Char) :=
  let s2 := r.takeWhile isPySpace
  match r.drop s2.length with
  | '=' :: r3 =>
    let s3 := r3.takeWhile isPySpace
    match r3.drop s3.length with
    | q :: r4 =>
      if q = '"' || q = '\'' then
        let body := r4.takeWhile (fun c => c != '"' && c != '\'')
        match r4.drop body.length with
        | q2 :: r5 => if q2 = '"' || q2 = '\'' then some r5 else none
        | [] => none
      else none
    | [] => none
  | _ => none

/-- Matcher for the event-handler pattern
`\s+on\w+\s*=\s*["'][^"']*["']` (IGNORECASE). -/
def matchEventAttrAt (cs : List Char) : Option (List Char) :=
  let sp := cs.takeWhile isPySpace
  if sp = [] then none
  else
    let r1 := cs.drop sp.length
    if startsWithCI "on".toList r1 then
      let w := (r1.drop 2).takeWhile isWordChar
      if w = [] then none else matchEqQuoted ((r1.drop 2).drop w.length)
    else none

/-- Matcher for the style-attribute pattern
`\s+style\s*=\s*["'][^"']*["']` (IGNORECASE). -/
def matchStyleAttrAt (cs : List Char) : Option (List Char) :=
  let sp := cs.takeWhile isPySpace
  if sp = [] then none
  else
    let r1 := cs.drop sp.length
    if startsWithCI "style".toList r1 then matchEqQuoted (r1.drop 5) else none

def allowedTagNames : List (List Char) :=
  [['b'], ['i'], ['u'], "strong".toList, "em".toList, ['a'], "br".toList, ['p']]

/-- The lookahead `(?:b|i|u|strong|em|a|br|p)(?:\s|>)`, applied to the text
directly after '<'. -/
def allowedLookahead (rest : List Char) : Bool :=
  allowedTagNames.any fun t =>
    startsWithCI t rest &&
    match rest.drop t.length with
    | c :: _ => isPySpace c || c = '>'
    | [] => false

/-- Matcher for `<(?!(?:b|i|u|strong|em|a|br|p)(?:\s|>))/?[^>]*>`
(IGNORECASE): the negative lookahead is checked right after '<', before the
optional slash. -/
def matchDisallowedTagAt (cs : List Char) : Option (List Char) :=
  match cs with
  | [] => none
  | c :: rest =>
    if c = '<' then
      if allowedLookahead rest then none else dropThroughGt rest
    else none

/-- EmailParser._clean_html_content: strip, remove dangerous tag blocks and
self-closing forms, remove quoted event-handler and style attributes,
remove every tag whose post-'<' text does not pass the allow-list
lookahead, collapse whitespace, strip. -/
def clean_html_content (html_content : String) : String :=
  if html_content = "" then ""
  else
    let c0 := pyStrip html_content.toList
    let c1 := stripDangerous c0
    let c2 := scanRemove matchEventAttrAt c1.length c1
    let c3 := scanRemove matchStyleAttrAt c2.length c2
    let c4 := scanRemove matchDisallowedTagAt c3.length c3
    let c5 := collapseWsL c4.length c4
    String.mk (pyStrip c5)

/-- The body-selection step of EmailParser.format_full_message: the cleaned
HTML body is preferred when present, otherwise the plain-text body is
HTML-escaped. -/
def formatFullMessageBody (body_text body_html : String) : String :=
  if body_html ≠ "" then clean_html_content body_html else htmlEscape body_text

/-! Specification predicates and concrete instances used by the claim
theorems. -/

/-- The conditions under which a walked part gave rise to an attachment
record: disposition containing "attachment", a declared non-empty filename,
a non-empty decoded payload carried over into the record. -/
def attOrigin (p : PartData) (a : Attachment) : Prop :=
  containsSub "attachment".toList p.content_disposition.toList = true ∧
  p.filename = some a.filename ∧ a.filename ≠ "" ∧ p.payload ≠ "" ∧
  p.payload = a.data

/-- A deactivated (soft-deleted) document left behind by an earlier address
of identity 1. -/
def c1OldDoc : UserDoc :=
  { telegram_id := 1, email := "abcdef_a1b2c3d4@seveton.site", pfx := "abcdef",
    created_at := 0, expires_at := 3600, is_active := false, last_checked := 0,
    message_count := 0, total_messages_received := 0, last_message_date := none,
    deactivated_at := some 3600, deactivation_reason := some "expired" }

/-- A concrete single-part plain-text message. -/
def c4Msg : EmailMsg :=
  { subject := "s", sender := "f", to_header := "t", date_str := "",
    message_id := "", multipart := false,
    selfPart := { content_type := "text/plain", content_disposition := "",
                  filename := none, payload := "hi" },
    parts := [] }

/-- A concrete single-part message that declares a filename and an
attachment disposition. -/
def c10Msg : EmailMsg :=
  { subject := "s", sender := "f", to_header := "t", date_str := "",
    message_id := "", multipart := false,
    selfPart := { content_type := "application/pdf",
                  content_disposition := "attachment; filename=a.pdf",
                  filename := some "a.pdf", payload := "PDF" },
    parts := [] }

/-- A minimal fetched-message record for concrete evaluations. -/
def baseMsg (u : String) : FetchedMessage :=
  { uid := u, subject := "", sender := "", toHdr := "", date_str := "",
    message_id := "", body_text := "", body_html := "", attachments := [],
    has_attachments := false, attachment_count := 0, parse_error := false }

/-- A stored active entry for identity 5 with non-zero prior counters. -/
def c6ActiveDoc : UserDoc :=
  { telegram_id := 5, email := "bob_a1b2c3d4@seveton.site", pfx := "bob",
    created_at := 0, expires_at := 3600, is_active := true, last_checked := 0,
    message_count := 3, total_messages_received := 7, last_message_date := none,
    deactivated_at := none, deactivation_reason := none }

/-- The same entry, deactivated. -/
def c6InactiveDoc : UserDoc :=
  { c6ActiveDoc with is_active := false }

/-- A ten-thousand-character body. -/
def c9BigBody : String := String.mk (List.replicate 10000 'a')

/-! General lemmas about the store operations. -/

theorem updateMany_fst (q : UserDoc → Bool) (u : UserDoc → UserDoc) (db : Store) :
    (updateMany q u db).1 = db.map (fun d => if q d then u d else d) := by
  induction db with
  | nil => rfl
  | cons d ds ih => by_cases h : q d <;> simp [updateMany, h, ih]

theorem updateMany_snd (q : UserDoc → Bool) (u : UserDoc → UserDoc) (db : Store) :
    (updateMany q u db).2 = db.countP q := by
  induction db with
  | nil => rfl
  | cons d ds ih => by_cases h : q d <;> simp [updateMany, h, ih, List.countP_cons]

theorem updateOne_no_match (q : UserDoc → Bool) (u : UserDoc → UserDoc) (db : Store)
    (h : ∀ x ∈ db, q x = false) : updateOne q u db = (db, false) := by
  induction db with
  | nil => rfl
  | cons d ds ih =>
    have hd : q d = false := h d (by simp)
    have ih' := ih (fun x hx => h x (by simp [hx]))
    simp [updateOne, hd, ih']

theorem countP_updateOne_le (q : UserDoc → Bool) (u : UserDoc → UserDoc)
    (P : UserDoc → Bool) (hu : ∀ d, P (u d) = false) (db : Store) :
    (updateOne q u db).1.countP P ≤ db.countP P := by
  induction db with
  | nil => simp [updateOne]
  | cons d ds ih =>
    by_cases h : q d
    all_goals simp [updateOne, h, List.countP_cons, hu d]
    all_goals omega

theorem countP_updateMany_le (q : UserDoc → Bool) (u : UserDoc → UserDoc)
    (P : UserDoc → Bool) (hu : ∀ d, P (u d) = false) (db : Store) :
    (updateMany q u db).1.countP P ≤ db.countP P := by
  induction db with
  | nil => simp [updateMany]
  | cons d ds ih =>
    by_cases h : q d
    all_goals simp [updateMany, h, List.countP_cons, hu d]
    all_goals omega

/-! Claim C1. -/

/-- Claim C1 (code bug): create_user is documented (and specified) as
replace-on-create — deactivate the active entry, then insert a fresh one,
succeeding even when an inactive entry for the identity remains stored.
Because _create_indexes installs a full (non-partial) unique index on
telegram_id while deactivation only soft-deletes, the insert instead raises
DuplicateKeyError whenever any document for the identity survives: on a
store holding only the inactive c1OldDoc, create_user for identity 1 fails.
On a fresh identity the claimed field contract does hold: created_at = now,
expires_at = created_at + TTL exactly, both counters zero, entry active. -/
theorem c1_create_rejects_despite_inactive_entry :
    (create_user 1 "abcdef_zzzzzzzz@seveton.site" (some "abcdef") 7200 [c1OldDoc]).1 =
      .error .duplicateKey ∧
    (create_user 2 "abcdef_zzzzzzzz@seveton.site" (some "abcdef") 7200 []).1 =
      .ok { telegram_id := 2, email := "abcdef_zzzzzzzz@seveton.site",
            pfx := "abcdef", created_at := 7200,
            expires_at := 7200 + EMAIL_EXPIRY_TIME, is_active := true,
            last_checked := 7200, message_count := 0,
            total_messages_received := 0, last_message_date := none,
            deactivated_at := none, deactivation_reason := none } := by
  exact ⟨rfl, rfl⟩

/-! Claim C5. -/

/-- Claim C5: the expiry sweep deactivates exactly the stored entries that
are active with expires_at strictly in the past — each becomes the same
document with is_active = false and deactivation_reason = "expired", all
other fields (identity, address, expiry) untouched — while every other
entry is returned unchanged, and the reported count is the number of
entries so deactivated. -/
theorem c5_sweep_exactly_expired (now : Nat) (db : Store) :
    (delete_expired_users now db).1 =
      db.map (fun d => if isExpiredActive now d then expireDoc now d else d) ∧
    (delete_expired_users now db).2 = db.countP (isExpiredActive now) ∧
    ∀ d : UserDoc, (expireDoc now d).is_active = false ∧
      (expireDoc now d).deactivation_reason = some "expired" ∧
      (expireDoc now d).telegram_id = d.telegram_id ∧
      (expireDoc now d).email = d.email ∧
      (expireDoc now d).expires_at = d.expires_at := by
  refine ⟨updateMany_fst _ _ db, updateMany_snd _ _ db, ?_⟩
  intro d
  exact ⟨rfl, rfl, rfl, rfl, rfl⟩

/-! Claim C8. -/

/-- Claim C8 (code bug): the allow-list pass of _clean_html_content is the
pattern whose negative lookahead is tested directly after the opening
angle bracket, before the optional slash — so the closing form of an
allow-listed tag never passes the lookahead and is deleted.  On
"<b>bold</b>" the cleaner keeps the opening <b> but strips the closing
</b>, contradicting both the spec (allow-listed tags are left in place)
and the source comment that b/i/u/strong/em/a/br/p are the tags Telegram
supports.  Block removal and quoted-attribute stripping do behave as
claimed (second conjunct), while an unquoted event-handler attribute also
survives (third conjunct). -/
theorem c8_cleaner_strips_allowlisted_closing_tags :
    clean_html_content "<b>bold</b>" = "<b>bold" ∧
    clean_html_content "<p>Hello <script>evil()</script> world</p>" =
      "<p>Hello world" ∧
    clean_html_content "<b onclick=alert(1)>x</b>" = "<b onclick=alert(1)>x" := by
  exact ⟨rfl, rfl, rfl⟩

/-! Claim C4. -/

/-- Claim C4: _parse_email_message is total — it returns a record for every
raw input and every uid (the uid is echoed into the record); when the
extraction raises internally (the malformed case of the embedding) the
exception is not propagated: the result is the degraded record with
parse_error = true, placeholder subject and sender, the exception text in
body_text and no attachments; a successfully parsed message carries
parse_error = false (the source dictionary has no parse_error key). -/
theorem c4_parse_total_and_degrades (raw : RawMessage) (uid : String) :
    (parse_email_message raw uid).uid = uid ∧
    (∀ e, raw = RawMessage.malformed e →
      (parse_email_message raw uid).parse_error = true ∧
      (parse_email_message raw uid).subject = "Parse Error" ∧
      (parse_email_message raw uid).sender = "Unknown" ∧
      (parse_email_message raw uid).body_text = "Error parsing email: " ++ e ∧
      (parse_email_message raw uid).attachments = []) ∧
    (∀ m, raw = RawMessage.wellFormed m →
      (parse_email_message raw uid).parse_error = false) := by
  refine ⟨?_, ?_, ?_⟩
  · cases raw <;> rfl
  · intro e he
    subst he
    exact ⟨rfl, rfl, rfl, rfl, rfl⟩
  · intro m hm
    subst hm
    rfl

theorem c4_parse_total_and_degrades_witness :
    (parse_email_message (RawMessage.malformed "boom") "9").parse_error = true ∧
    (parse_email_message (RawMessage.wellFormed c4Msg) "9").parse_error = false :=
  ⟨((c4_parse_total_and_degrades (RawMessage.malformed "boom") "9").2.1 "boom" rfl).1,
   (c4_parse_total_and_degrades (RawMessage.wellFormed c4Msg) "9").2.2 c4Msg rfl⟩

/-! Claim C10. -/

theorem extract_attachment_some (p : PartData) (a : Attachment)
    (h : extract_attachment p = some a) :
    p.filename = some a.filename ∧ a.filename ≠ "" ∧ p.payload ≠ "" ∧
    p.payload = a.data := by
  unfold extract_attachment at h
  split at h
  · exact Option.noConfusion h
  · rename_i fn heq
    split_ifs at h with h1 h2
    simp only [Option.some.injEq] at h
    subst h
    exact ⟨heq, h1, h2, rfl⟩

theorem bodyStep_mem (acc : String × String × List Attachment) (p : PartData)
    (a : Attachment) (h : a ∈ (bodyStep acc p).2.2) :
    a ∈ acc.2.2 ∨ attOrigin p a := by
  unfold bodyStep at h
  by_cases hd : containsSub "attachment".toList p.content_disposition.toList
  · rw [if_pos hd] at h
    cases he : extract_attachment p with
    | none => rw [he] at h; exact Or.inl h
    | some a' =>
      rw [he] at h
      rcases List.mem_append.mp h with h' | h'
      · exact Or.inl h'
      · have ha : a = a' := by simpa using h'
        subst ha
        exact Or.inr ⟨hd, extract_attachment_some p a he⟩
  · rw [if_neg hd] at h
    split_ifs at h <;> exact Or.inl h

theorem foldl_att_origin (ps : List PartData)
    (acc : String × String × List Attachment) (a : Attachment)
    (h : a ∈ (ps.foldl bodyStep acc).2.2) :
    a ∈ acc.2.2 ∨ ∃ p ∈ ps, attOrigin p a := by
  induction ps generalizing acc with
  | nil => exact Or.inl h
  | cons p ps ih =>
    rcases ih (bodyStep acc p) h with h' | ⟨p', hp', ho⟩
    · rcases bodyStep_mem acc p a h' with h'' | ho
      · exact Or.inl h''
      · exact Or.inr ⟨p, by simp, ho⟩
    · exact Or.inr ⟨p', by simp [hp'], ho⟩

/-- Claim C10: a part yields an attachment record only when it was reached
through the multipart walk with an "attachment" disposition, a declared
non-empty filename and a non-empty payload; consequently a single-part
(non-multipart) message always parses with an empty attachment list and
has_attachments = false — even when the message itself declares a
filename. -/
theorem c10_attachments_require_multipart (m : EmailMsg) (uid : String) :
    (m.multipart = false →
      (extract_body_and_attachments m).2.2 = [] ∧
      (parse_email_message (RawMessage.wellFormed m) uid).attachments = [] ∧
      (parse_email_message (RawMessage.wellFormed m) uid).has_attachments = false) ∧
    (∀ a ∈ (extract_body_and_attachments m).2.2, ∃ p ∈ walkParts m, attOrigin p a) := by
  constructor
  · intro hm
    have hatt : (extract_body_and_attachments m).2.2 = [] := by
      unfold extract_body_and_attachments
      rw [hm]
      simp only [Bool.false_eq_true, if_false]
      split_ifs <;> rfl
    exact ⟨hatt, by simp [parse_email_message, hatt],
           by simp [parse_email_message, hatt]⟩
  · intro a ha
    unfold extract_body_and_attachments at ha
    by_cases hm : m.multipart
    · rw [if_pos hm] at ha
      rcases foldl_att_origin (walkParts m) ("", "", []) a ha with h0 | h
      · simp at h0
      · exact h
    · rw [if_neg hm] at ha
      split_ifs at ha <;> simp at ha

theorem c10_attachments_require_multipart_witness :
    c10Msg.multipart = false ∧
    ((extract_body_and_attachments c10Msg).2.2 = [] ∧
     (parse_email_message (RawMessage.wellFormed c10Msg) "1").attachments = [] ∧
     (parse_email_message (RawMessage.wellFormed c10Msg) "1").has_attachments = false) :=
  ⟨rfl, (c10_attachments_require_multipart c10Msg "1").1 rfl⟩

/-! Claim C7. -/

/-- Claim C7 (amended: the limit must be at least 1): fetch_message_list on
the ordered UID sequence returned by the search selects exactly the last
`limit` UIDs, fetches them newest-first (the selected slice reversed), and
skips failed fetches without dropping the rest — the result is the
reversed selection filtered through the per-UID fetch outcome — and the
result never holds more than `limit` messages. -/
theorem c7_fetch_list_last_limit (fetch : String → Option FetchedMessage)
    (uids : List String) (limit : Int) (h : 1 ≤ limit) :
    fetch_message_list fetch uids limit =
      ((uids.drop (uids.length - limit.toNat)).reverse).filterMap fetch ∧
    (fetch_message_list fetch uids limit).length ≤ limit.toNat := by
  have main : fetch_message_list fetch uids limit =
      ((uids.drop (uids.length - limit.toNat)).reverse).filterMap fetch := by
    unfold fetch_message_list
    by_cases hnil : uids = []
    · simp [hnil]
    · rw [if_neg hnil]
      by_cases hgt : (uids.length : Int) > limit
      · rw [if_pos hgt]
        unfold pySliceFrom
        have hneg : -limit < 0 := by omega
        rw [if_pos hneg]
        have harith : ((uids.length : Int) + -limit).toNat = uids.length - limit.toNat := by
          omega
        rw [harith]
      · rw [if_neg hgt]
        have harith : uids.length - limit.toNat = 0 := by omega
        rw [harith, List.drop_zero]
  refine ⟨main, ?_⟩
  rw [main]
  refine le_trans (List.length_filterMap_le _ _) ?_
  rw [List.length_reverse, List.length_drop]
  omega

/-- Counterexample to claim C7 as stated: with limit = 0 the Python slice
`uids[-0:]` is the whole sequence, so all three messages are fetched and
returned although the claim allows at most zero. -/
theorem c7_limit_zero_fetches_all :
    (fetch_message_list (fun u => some (baseMsg u)) ["1", "2", "3"] 0).map
      (fun msg => msg.uid) = ["3", "2", "1"] := by
  rfl

theorem c7_fetch_list_last_limit_witness :
    1 ≤ (5 : Int) ∧
    (fetch_message_list (fun u => some (baseMsg u)) ["1", "2", "3"] 5 =
      (((["1", "2", "3"] : List String).drop
          ((["1", "2", "3"] : List String).length - (5 : Int).toNat)).reverse).filterMap
        (fun u => some (baseMsg u)) ∧
     (fetch_message_list (fun u => some (baseMsg u)) ["1", "2", "3"] 5).length ≤
       (5 : Int).toNat) :=
  ⟨by decide,
   c7_fetch_list_last_limit (fun u => some (baseMsg u)) ["1", "2", "3"] 5 (by decide)⟩

/-! Claim C6. -/

theorem activeFor_bump (tid now : Nat) (d : UserDoc) :
    activeFor tid (bumpDoc now d) = activeFor tid d := rfl

theorem increment_first_match (tid now : Nat) (p : Store) (d : UserDoc) (s : Store)
    (hp : ∀ x ∈ p, activeFor tid x = false) (hd : activeFor tid d = true) :
    increment_message_count tid now (p ++ d :: s) = (p ++ bumpDoc now d :: s, true) := by
  induction p with
  | nil => simp [increment_message_count, updateOne, hd]
  | cons x xs ih =>
    have hx : activeFor tid x = false := hp x (List.mem_cons_self x xs)
    have ih' := ih (fun y hy => hp y (List.mem_cons_of_mem x hy))
    unfold increment_message_count at ih' ⊢
    simp only [List.cons_append, updateOne, hx, Bool.false_eq_true, if_false,
      List.append_eq]
    rw [ih']

theorem iterate_bump (tid now k : Nat) (p : Store) (d : UserDoc) (s : Store)
    (hp : ∀ x ∈ p, activeFor tid x = false) (hd : activeFor tid d = true) :
    iterateIncrement tid now k (p ++ d :: s) =
      p ++ { d with message_count := d.message_count + k,
                    total_messages_received := d.total_messages_received + k,
                    last_message_date :=
                      if k = 0 then d.last_message_date else some now } :: s := by
  induction k generalizing d with
  | zero => rfl
  | succ k ih =>
    have hd' : activeFor tid (bumpDoc now d) = true := by
      rw [activeFor_bump]; exact hd
    show iterateIncrement tid now k (increment_message_count tid now (p ++ d :: s)).1 = _
    rw [increment_first_match tid now p d s hp hd]
    rw [ih (bumpDoc now d) hd']
    cases d
    simp [bumpDoc]
    constructor <;> omega

/-- Claim C6: for a store whose active entry for the identity sits at an
arbitrary position (everything before it fails the active-identity query),
one increment call modifies exactly that entry (both counters +1, the
last-message stamp set) and reports true, and k calls raise message_count
and total_messages_received by exactly k over their prior values; when no
stored entry matches the identity-and-active query, the call reports false
and leaves the store byte-for-byte unchanged, and so do k such calls. -/
theorem c6_increment_by_k (tid now k : Nat) :
    (∀ p d s, (∀ x ∈ p, activeFor tid x = false) → activeFor tid d = true →
      increment_message_count tid now (p ++ d :: s) = (p ++ bumpDoc now d :: s, true) ∧
      iterateIncrement tid now k (p ++ d :: s) =
        p ++ { d with message_count := d.message_count + k,
                      total_messages_received := d.total_messages_received + k,
                      last_message_date :=
                        if k = 0 then d.last_message_date else some now } :: s) ∧
    (∀ db, (∀ x ∈ db, activeFor tid x = false) →
      increment_message_count tid now db = (db, false) ∧
      iterateIncrement tid now k db = db) := by
  constructor
  · intro p d s hp hd
    exact ⟨increment_first_match tid now p d s hp hd,
           iterate_bump tid now k p d s hp hd⟩
  · intro db hdb
    have h1 : increment_message_count tid now db = (db, false) :=
      updateOne_no_match _ _ db hdb
    refine ⟨h1, ?_⟩
    induction k with
    | zero => rfl
    | succ k ih =>
      show iterateIncrement tid now k (increment_message_count tid now db).1 = db
      rw [h1]
      exact ih

/-! Claim C2. -/

theorem countP_deactivate_le (tid now : Nat) (db : Store) (t : Nat) :
    ((deactivate_user tid now db).1).countP (activeFor t) ≤ db.countP (activeFor t) := by
  apply countP_updateOne_le
  intro d
  simp [activeFor]

theorem noDoc_countP_zero (tid : Nat) (db : Store)
    (h : db.any (fun d => d.telegram_id == tid) = false) :
    db.countP (activeFor tid) = 0 := by
  rw [List.countP_eq_zero]
  intro d hd
  have h2 := (List.any_eq_false.mp h) d hd
  simp_all [activeFor]

theorem create_preserves_aoa (tid now : Nat) (email : String) (pfx : Option String)
    (db : Store) (hinv : ∀ t, db.countP (activeFor t) ≤ 1) (t : Nat) :
    ((create_user tid email pfx now db).2).countP (activeFor t) ≤ 1 := by
  simp only [create_user]
  have h1 : ((deactivate_user tid now db).1).countP (activeFor t) ≤ 1 :=
    le_trans (countP_deactivate_le tid now db t) (hinv t)
  by_cases hdup : ((deactivate_user tid now db).1).any (fun d => d.telegram_id == tid)
  · simp only [hdup, if_true]
    exact h1
  · simp only [hdup, Bool.false_eq_true, if_false]
    rw [List.countP_append]
    by_cases ht : t = tid
    · subst ht
      have hz : ((deactivate_user t now db).1).countP (activeFor t) = 0 :=
        noDoc_countP_zero t _ (by simpa using hdup)
      rw [hz]
      simp [activeFor, List.countP_cons]
    · have ht' : tid ≠ t := fun hh => ht hh.symm
      simp [List.countP_cons, activeFor, ht']
      all_goals omega

theorem applyOp_preserves (db : Store) (op : RegOp)
    (hinv : ∀ t, db.countP (activeFor t) ≤ 1) (t : Nat) :
    (applyOp db op).countP (activeFor t) ≤ 1 := by
  cases op with
  | create now tid email pfx => exact create_preserves_aoa tid now email pfx db hinv t
  | deactivate now tid => exact le_trans (countP_deactivate_le tid now db t) (hinv t)
  | sweep now =>
    refine le_trans ?_ (hinv t)
    simp only [applyOp, delete_expired_users]
    apply countP_updateMany_le
    intro d
    simp [activeFor, expireDoc]

/-- Claim C2: whatever finite sequence of create, deactivate, and
expiry-sweep operations is applied to the Registry (starting from the empty
store), at most one stored entry per identity has is_active = true. -/
theorem c2_at_most_one_active (ops : List RegOp) (tid : Nat) :
    ((applyOps ops []).countP (activeFor tid)) ≤ 1 := by
  have key : ∀ (l : List RegOp) (db : Store), (∀ t, db.countP (activeFor t) ≤ 1) →
      ∀ t, (applyOps l db).countP (activeFor t) ≤ 1 := by
    intro l
    induction l with
    | nil => intro db h t; exact h t
    | cons op l ih =>
      intro db h t
      exact ih (applyOp db op) (fun t' => applyOp_preserves db op h t') t
  exact key ops [] (fun t => by simp) tid

/-! Claim C9. -/

theorem length_mk (cs : List Char) : (String.mk cs).length = cs.length := rfl

theorem createTextPreview_le (text : String) (plen : Int) (h : 7 ≤ plen) :
    ((createTextPreview text plen).length : Int) ≤ plen + 3 := by
  by_cases ht : text = ""
  · simp only [createTextPreview, if_pos ht]
    have e : ("No content" : String).length = 10 := rfl
    rw [e]
    omega
  · simp only [createTextPreview, if_neg ht]
    set p := joinNl (collectLines plen []
      (splitNl (collapseWsL (pyStrip text.toList).length (pyStrip text.toList)))) with hp
    by_cases hgt : (p.length : Int) > plen
    · rw [if_pos hgt, length_mk, List.length_append]
      have e3 : ("..." : String).toList.length = 3 := rfl
      rw [e3]
      have h3 : (pySliceTo p (plen - 3)).length ≤ (plen - 3).toNat := by
        unfold pySliceTo
        have hnn : ¬ (plen - 3 < 0) := by omega
        rw [if_neg hnn]
        exact List.length_take_le _ _
      omega
    · rw [if_neg hgt, length_mk]
      omega

/-- Claim C9: the text-preview portion of format_message_preview (the line
holding the output of _create_text_preview) never exceeds the configured
preview length plus the 3-character ellipsis, for every body text and every
preview length of at least 7 (the configured default is 200) — the
hypothesis covers the 10-character "No content" placeholder produced for an
empty body. -/
theorem c9_preview_length_bound (sender subject body_text : String)
    (has_attachments : Bool) (attachment_count : Nat) (received now plen : Int)
    (h : 7 ≤ plen) :
    (formatMessagePreviewLines sender subject body_text has_attachments
        attachment_count received now plen).get? 4 =
      some ("ðŸ“„ " ++ createTextPreview body_text plen) ∧
    ((createTextPreview body_text plen).length : Int) ≤ plen + 3 := by
  constructor
  · unfold formatMessagePreviewLines
    cases has_attachments <;> rfl
  · exact createTextPreview_le body_text plen h

theorem c9_preview_length_bound_witness :
    7 ≤ (200 : Int) ∧
    ((formatMessagePreviewLines "s" "sub" c9BigBody false 0 0 0 200).get? 4 =
       some ("ðŸ“„ " ++ createTextPreview c9BigBody 200) ∧
     ((createTextPreview c9BigBody 200).length : Int) ≤ 200 + 3) :=
  ⟨by norm_num, c9_preview_length_bound "s" "sub" c9BigBody false 0 0 0 200 (by norm_num)⟩

/-! Claim C3. -/

theorem takeWhile_prefix_split (f : Char → Bool) (p : List Char) (x : Char)
    (r : List Char) (hall : ∀ c ∈ p, f c = true) (hx : f x = false) :
    (p ++ x :: r).takeWhile f = p := by
  induction p with
  | nil => simp [List.takeWhile_cons, hx]
  | cons c cs ih =>
    have hc : f c = true := hall c (List.mem_cons_self c cs)
    simp [List.takeWhile_cons, hc,
      ih (fun y hy => hall y (List.mem_cons_of_mem c hy))]

theorem isLowerAlnum_not_underscore (c : Char) (h : isLowerAlnum c = true) :
    (c != '_') = true := by
  by_cases hc : c = '_'
  · subst hc
    exact absurd h (by decide)
  · simp [hc]

theorem emailMatchesPattern_mk (p s : List Char) (hp : p ≠ [])
    (hpa : p.all isLowerAlnum = true) (hs : s.length = EMAIL_RANDOM_LENGTH)
    (hsa : s.all isLowerAlnum = true) :
    emailMatchesPattern (mkEmail p s) = true := by
  have hdom : (mkEmail p s).toList = p ++ '_' :: (s ++ '@' :: EMAIL_DOMAIN.toList) := by
    simp [mkEmail]
  simp only [emailMatchesPattern, hdom]
  have h1 : (p ++ '_' :: (s ++ '@' :: EMAIL_DOMAIN.toList)).takeWhile
      (fun c => c != '_') = p :=
    takeWhile_prefix_split _ p '_' _
      (fun c hc => isLowerAlnum_not_underscore c (List.all_eq_true.mp hpa c hc))
      (by decide)
  rw [h1, List.drop_left, ← hs]
  simp [List.take_left, List.drop_left, hp, hpa, hsa]

theorem pick_allowed (r : Nat) : isLowerAlnum (pick EMAIL_ALLOWED_CHARS r) = true := by
  unfold pick
  have h36 : EMAIL_ALLOWED_CHARS.length = 36 := rfl
  have hlt : r % EMAIL_ALLOWED_CHARS.length < 36 := by
    rw [h36]
    exact Nat.mod_lt r (by norm_num)
  have hall : ∀ i, i < 36 → isLowerAlnum (EMAIL_ALLOWED_CHARS.getD i 'a') = true := by
    decide
  exact hall _ hlt

theorem drawString_all (tape : Nat → Nat) (pos len : Nat) :
    (drawString tape pos len EMAIL_ALLOWED_CHARS).all isLowerAlnum = true := by
  rw [List.all_eq_true]
  intro c hc
  simp only [drawString, List.mem_map, List.mem_range] at hc
  obtain ⟨i, _, rfl⟩ := hc
  exact pick_allowed _

theorem drawString_length (tape : Nat → Nat) (pos len : Nat) (chars : List Char) :
    (drawString tape pos len chars).length = len := by
  simp [drawString]

theorem userPrefixGen_good (tape : Nat → Nat) (pos : Nat) (cp : Option String)
    (hok : pfxOk cp = true) :
    (userPrefixGen tape pos cp).1 ≠ [] ∧
    (userPrefixGen tape pos cp).1.all isLowerAlnum = true := by
  have hdrawne : ∀ q, drawString tape q EMAIL_PREFIX_LENGTH EMAIL_ALLOWED_CHARS ≠ [] := by
    intro q h
    have hl := drawString_length tape q EMAIL_PREFIX_LENGTH EMAIL_ALLOWED_CHARS
    rw [h] at hl
    exact absurd hl.symm (by decide)
  cases cp with
  | none => exact ⟨hdrawne pos, drawString_all tape pos _⟩
  | some s =>
    by_cases hs : s = ""
    · subst hs
      have hred : userPrefixGen tape pos (some "") =
          (drawString tape pos EMAIL_PREFIX_LENGTH EMAIL_ALLOWED_CHARS,
           pos + EMAIL_PREFIX_LENGTH) := rfl
      rw [hred]
      exact ⟨hdrawne pos, drawString_all tape pos _⟩
    · have hclean : ((s.toList.map pyLower).filter pyIsAlnum).all isLowerAlnum = true := by
        have h2 := hok
        simp only [pfxOk, Bool.and_eq_true] at h2
        exact h2.2
      simp only [userPrefixGen]
      rw [if_neg hs]
      set clean := (s.toList.map pyLower).filter pyIsAlnum with hc
      by_cases h6 : EMAIL_PREFIX_LENGTH < clean.length
      · rw [if_pos h6]
        refine ⟨?_, ?_⟩
        · show clean.take EMAIL_PREFIX_LENGTH ≠ []
          have hlen : (clean.take EMAIL_PREFIX_LENGTH).length = EMAIL_PREFIX_LENGTH := by
            rw [List.length_take]
            omega
          intro hnil
          rw [hnil] at hlen
          exact absurd hlen.symm (by decide)
        · show (clean.take EMAIL_PREFIX_LENGTH).all isLowerAlnum = true
          rw [List.all_eq_true]
          intro c hcm
          exact List.all_eq_true.mp hclean c (List.take_subset _ _ hcm)
      · rw [if_neg h6]
        by_cases h0 : clean.length = 0
        · rw [if_pos h0]
          exact ⟨hdrawne pos, drawString_all tape pos _⟩
        · rw [if_neg h0]
          have hne : clean ≠ [] := by
            intro hnil
            rw [hnil] at h0
            exact h0 rfl
          refine ⟨?_, ?_⟩
          · show clean ++ drawString tape pos (EMAIL_PREFIX_LENGTH - clean.length)
              EMAIL_ALLOWED_CHARS ≠ []
            simp [hne]
          · show (clean ++ drawString tape pos (EMAIL_PREFIX_LENGTH - clean.length)
              EMAIL_ALLOWED_CHARS).all isLowerAlnum = true
            rw [List.all_append, Bool.and_eq_true]
            exact ⟨hclean, drawString_all tape pos _⟩

theorem genAttempts_some (tape : Nat → Nat) (p : List Char) (db : Store) :
    ∀ (n pos : Nat) (e : String), (genAttempts tape p db pos n).1 = some e →
    db.any (fun d => d.email == e) = false ∧
    ∃ pos0, e = mkEmail p (drawString tape pos0 EMAIL_RANDOM_LENGTH EMAIL_ALLOWED_CHARS) := by
  intro n
  induction n with
  | zero => intro pos e h; exact Option.noConfusion h
  | succ n ih =>
    intro pos e h
    simp only [genAttempts] at h
    by_cases hdup : db.any (fun d =>
        d.email == mkEmail p (drawString tape pos EMAIL_RANDOM_LENGTH EMAIL_ALLOWED_CHARS))
    · rw [if_pos hdup] at h
      exact ih _ e h
    · rw [if_neg hdup] at h
      simp only [Option.some.injEq] at h
      subst h
      exact ⟨by simpa using hdup, pos, rfl⟩

theorem hasEmail_updateOne (q : UserDoc → Bool) (u : UserDoc → UserDoc)
    (hu : ∀ d, (u d).email = d.email) (db : Store) (e : String) :
    hasEmail e (updateOne q u db).1 = hasEmail e db := by
  induction db with
  | nil => rfl
  | cons d ds ih =>
    by_cases h : q d
    · simp [updateOne, hasEmail, h, hu d]
    · simp only [updateOne, h, Bool.false_eq_true, if_false]
      simp only [hasEmail, List.any_cons] at ih ⊢
      rw [ih]

theorem hasEmail_deactivate (tid now : Nat) (db : Store) (e : String) :
    hasEmail e (deactivate_user tid now db).1 = hasEmail e db := by
  unfold deactivate_user
  exact hasEmail_updateOne (activeFor tid)
    (fun d => { d with is_active := false, deactivated_at := some now })
    (fun d => rfl) db e

theorem hasEmail_create_mono (tid : Nat) (email : String) (pfx : Option String)
    (now : Nat) (db : Store) (e : String) (h : hasEmail e db = true) :
    hasEmail e (create_user tid email pfx now db).2 = true := by
  simp only [create_user]
  have hdb1 : hasEmail e (deactivate_user tid now db).1 = true := by
    rw [hasEmail_deactivate]
    exact h
  by_cases hdup : ((deactivate_user tid now db).1).any (fun d => d.telegram_id == tid)
  · rw [if_pos hdup]
    exact hdb1
  · rw [if_neg hdup]
    simp only [hasEmail, List.any_append, Bool.or_eq_true]
    exact Or.inl hdb1

theorem hasEmail_create_inserted (tid : Nat) (email : String) (pfx : Option String)
    (now : Nat) (db : Store) (d0 : UserDoc)
    (h : (create_user tid email pfx now db).1 = Except.ok d0) :
    hasEmail email (create_user tid email pfx now db).2 = true := by
  simp only [create_user] at h ⊢
  by_cases hdup : ((deactivate_user tid now db).1).any (fun d => d.telegram_id == tid)
  · rw [if_pos hdup] at h
    exact Except.noConfusion h
  · rw [if_neg hdup]
    simp [hasEmail, List.any_append, List.any_cons]

theorem provision_mono (tape : Nat → Nat) (pos : Nat) (st : ProvisionStep)
    (db : Store) (e : String) (h : hasEmail e db = true) :
    hasEmail e (provision tape pos st db).2.2 = true := by
  simp only [provision]
  by_cases hpre : db.any (fun d => activeFor st.tid d)
  · rw [if_pos hpre]
    exact h
  · rw [if_neg hpre]
    cases hg : (generate_unique_email tape pos st.customPfx db).1 with
    | none => exact h
    | some email =>
      show hasEmail e (provisionInsert st db email
        (generate_unique_email tape pos st.customPfx db).2).2.2 = true
      simp only [provisionInsert]
      cases hc : (create_user st.tid email (some (derivedPfxOf email)) st.now db).1 with
      | ok d0 =>
        exact hasEmail_create_mono st.tid email (some (derivedPfxOf email)) st.now db e h
      | error err =>
        exact hasEmail_create_mono st.tid email (some (derivedPfxOf email)) st.now db e h

theorem provision_some (tape : Nat → Nat) (pos : Nat) (st : ProvisionStep)
    (db : Store) (e : String) (h : (provision tape pos st db).1 = some e) :
    hasEmail e db = false ∧ hasEmail e (provision tape pos st db).2.2 = true ∧
    (stepOk st = true → emailMatchesPattern e = true) := by
  simp only [provision] at h ⊢
  by_cases hpre : db.any (fun d => activeFor st.tid d)
  · rw [if_pos hpre] at h
    exact Option.noConfusion h
  · rw [if_neg hpre] at h ⊢
    cases hg : (generate_unique_email tape pos st.customPfx db).1 with
    | none =>
      rw [hg] at h
      exact Option.noConfusion h
    | some email =>
      rw [hg] at h
      replace h : (provisionInsert st db email
        (generate_unique_email tape pos st.customPfx db).2).1 = some e := h
      show hasEmail e db = false ∧
        hasEmail e (provisionInsert st db email
          (generate_unique_email tape pos st.customPfx db).2).2.2 = true ∧
        (stepOk st = true → emailMatchesPattern e = true)
      simp only [provisionInsert] at h ⊢
      cases hc : (create_user st.tid email (some (derivedPfxOf email)) st.now db).1 with
      | error err =>
        rw [hc] at h
        exact Option.noConfusion h
      | ok d0 =>
        rw [hc] at h
        have hee : email = e := by
          have h2 : some email = some e := h
          exact Option.some.inj h2
        subst hee
        have hg' := hg
        simp only [generate_unique_email] at hg'
        have hga := genAttempts_some tape (userPrefixGen tape pos st.customPfx).1 db
          EMAIL_MAX_GENERATION_ATTEMPTS (userPrefixGen tape pos st.customPfx).2 email hg'
        refine ⟨hga.1, hasEmail_create_inserted st.tid email _ st.now db d0 hc, ?_⟩
        intro hok
        obtain ⟨pos0, rfl⟩ := hga.2
        have hpref := userPrefixGen_good tape pos st.customPfx hok
        exact emailMatchesPattern_mk _ _ hpref.1 hpref.2
          (drawString_length tape pos0 _ _) (drawString_all tape pos0 _)

theorem run_ne_of_mem (tape : Nat → Nat) (ss : List ProvisionStep) :
    ∀ (pos : Nat) (db : Store) (x : String), hasEmail x db = true →
    ∀ e ∈ (runProvisions tape ss pos db).1, e ≠ x := by
  induction ss with
  | nil =>
    intro pos db x _ e he
    simp [runProvisions] at he
  | cons s ss ih =>
    intro pos db x hx e he
    simp only [runProvisions] at he
    cases hr : (provision tape pos s db).1 with
    | none =>
      rw [hr] at he
      exact ih _ _ x (provision_mono tape pos s db x hx) e he
    | some e0 =>
      rw [hr] at he
      rcases List.mem_cons.mp he with rfl | htail
      · have hfresh := (provision_some tape pos s db e hr).1
        intro hex
        rw [hex, hx] at hfresh
        exact Bool.noConfusion hfresh
      · exact ih _ _ x (provision_mono tape pos s db x hx) e htail

theorem run_pairwise (tape : Nat → Nat) (ss : List ProvisionStep) :
    ∀ (pos : Nat) (db : Store),
    List.Pairwise (fun a b => a ≠ b) (runProvisions tape ss pos db).1 := by
  induction ss with
  | nil =>
    intro pos db
    simp [runProvisions]
  | cons s ss ih =>
    intro pos db
    simp only [runProvisions]
    cases hr : (provision tape pos s db).1 with
    | none => exact ih _ _
    | some e0 =>
      refine List.pairwise_cons.mpr ⟨?_, ih _ _⟩
      intro b hb
      have hmem := (provision_some tape pos s db e0 hr).2.1
      exact fun hEq => (run_ne_of_mem tape ss _ _ e0 hmem b hb) hEq.symm

theorem run_pattern (tape : Nat → Nat) (ss : List ProvisionStep) :
    ∀ (pos : Nat) (db : Store), (∀ s ∈ ss, stepOk s = true) →
    ∀ e ∈ (runProvisions tape ss pos db).1, emailMatchesPattern e = true := by
  induction ss with
  | nil =>
    intro pos db _ e he
    simp [runProvisions] at he
  | cons s ss ih =>
    intro pos db hok e he
    simp only [runProvisions] at he
    cases hr : (provision tape pos s db).1 with
    | none =>
      rw [hr] at he
      exact ih _ _ (fun s' hs' => hok s' (List.mem_cons_of_mem s hs')) e he
    | some e0 =>
      rw [hr] at he
      rcases List.mem_cons.mp he with rfl | htail
      · exact (provision_some tape pos s db e hr).2.2 (hok s (List.mem_cons_self s ss))
      · exact ih _ _ (fun s' hs' => hok s' (List.mem_cons_of_mem s hs')) e htail

/-- Claim C3 (amended: restricted to well-behaved custom prefixes): for any
sequence of provision calls whose custom prefixes are absent or have a
cleaned form inside [a-z0-9] — which holds for every ASCII custom prefix —
the successfully returned addresses are pairwise distinct (each call checks
its candidate against every stored document, active or not, and inserts it
on success) and every returned address matches
`^[a-z0-9]+_[a-z0-9]{8}@seveton.site$`.  The original claim's "arbitrary
custom prefix" fails: Python's str.isalnum accepts non-ASCII alphanumerics,
so they survive the cleaning and violate the character class (see the
counterexample). -/
theorem c3_provision_unique_and_pattern (tape : Nat → Nat)
    (steps : List ProvisionStep) (pos : Nat) (db : Store)
    (hok : ∀ s ∈ steps, stepOk s = true) :
    List.Pairwise (fun a b => a ≠ b) (runProvisions tape steps pos db).1 ∧
    ∀ e ∈ (runProvisions tape steps pos db).1, emailMatchesPattern e = true :=
  ⟨run_pairwise tape steps pos db, run_pattern tape steps pos db hok⟩

/-- Counterexample to claim C3 as stated: the custom prefix "ééé" (é is a
non-ASCII alphanumeric, so Python's isalnum keeps it) yields a successful
provision whose address does not match `^[a-z0-9]+_[a-z0-9]{8}@domain$`. -/
theorem c3_nonascii_custom_pfx_breaks_pattern :
    (provision (fun _ => 0) 0 { tid := 1, customPfx := some "ééé", now := 0 } []).1 =
      some "éééaaa_aaaaaaaa@seveton.site" ∧
    emailMatchesPattern "éééaaa_aaaaaaaa@seveton.site" = false := by
  exact ⟨rfl, rfl⟩

theorem c3_provision_unique_and_pattern_witness :
    (∀ s ∈ [({ tid := 1, customPfx := none, now := 0 } : ProvisionStep)],
      stepOk s = true) ∧
    (List.Pairwise (fun a b => a ≠ b)
       (runProvisions (fun _ => 0)
         [{ tid := 1, customPfx := none, now := 0 }] 0 []).1 ∧
     ∀ e ∈ (runProvisions (fun _ => 0)
         [{ tid := 1, customPfx := none, now := 0 }] 0 []).1,
       emailMatchesPattern e = true) :=
  ⟨by decide,
   c3_provision_unique_and_pattern (fun _ => 0)
     [{ tid := 1, customPfx := none, now := 0 }] 0 [] (by decide)⟩

theorem c6_increment_by_k_witness :
    iterateIncrement 5 100 2 ([] ++ c6ActiveDoc :: []) =
      [] ++ { c6ActiveDoc with
              message_count := c6ActiveDoc.message_count + 2,
              total_messages_received := c6ActiveDoc.total_messages_received + 2,
              last_message_date :=
                if 2 = 0 then c6ActiveDoc.last_message_date else some 100 } :: [] ∧
    increment_message_count 5 100 [c6InactiveDoc] = ([c6InactiveDoc], false) :=
  ⟨((c6_increment_by_k 5 100 2).1 [] c6ActiveDoc [] (by decide) (by decide)).2,
   ((c6_increment_by_k 5 100 2).2 [c6InactiveDoc] (by decide)).1⟩

end TG
